import Mathlib

/-!
Verification of the AdSpy sponsored-ad pipeline (services/adspy/server.py)
against its natural-language specification.

The Python service scans Google result pages with a headless browser,
extracts candidate ad records with three strategies, merges them with
dedup, assigns positions, truncates to the requested count and enriches
with landing-page screenshots.  The browser/DOM side is abstracted as
inputs (candidate lists per page, per-link screenshot outcomes); every
piece of pure logic (URL redirect resolution, dedup merge, the page
loop's control flow, position assignment, description and sitelink
extraction, the response envelope) is embedded below and proved about.

String primitives of the Python standard library (`str.split`,
`str.strip`, slicing, `in`) are modelled by fuel-free structural
recursions over character lists so that every definition evaluates
inside the kernel.
-/

namespace AdSpy

/-- One splitting step bank: `splitOnFuel pat fuel s acc` scans `s`,
cutting at every non-overlapping occurrence of `pat` (leftmost first),
with `acc` the reversed characters of the chunk being built.  With
`fuel ≥ s.length` this is Python's `s.split(pat)` for nonempty `pat`. -/
def splitOnFuel (pat : List Char) : Nat → List Char → List Char → List (List Char)
  | _, [], acc => [acc.reverse]
  | 0, s, acc => [acc.reverse ++ s]
  | fuel + 1, c :: rest, acc =>
    if pat.isPrefixOf (c :: rest) then
      acc.reverse :: splitOnFuel pat fuel (List.drop (pat.length - 1) rest) []
    else
      splitOnFuel pat fuel rest (c :: acc)

/-- Python `s.split(pat)` for nonempty `pat` (also the behaviour of
`str.split(sep, 1)` when the tail is re-joined, see `pyJoin`). -/
def pySplit (s pat : String) : List String :=
  (splitOnFuel pat.data s.data.length s.data []).map String.mk

/-- `sep.join(parts)`. -/
def pyJoin (sep : String) (parts : List String) : String :=
  String.mk (List.intercalate sep.data (parts.map String.data))

/-- Python's `pat in s` substring test: `s.split(pat)` has more than one
piece exactly when `pat` occurs in `s` (for nonempty `pat`). -/
def containsSubstr (s pat : String) : Bool :=
  (pySplit s pat).length != 1

/-- Python `len(s)`. -/
def pyLen (s : String) : Nat := s.data.length

/-- Python `s.strip()`: drop whitespace from both ends. -/
def pyStrip (s : String) : String :=
  String.mk (((s.data.dropWhile Char.isWhitespace).reverse.dropWhile Char.isWhitespace).reverse)

/-- Python `s[:n]` for `n ≥ 0`. -/
def pyTake (s : String) (n : Nat) : String :=
  String.mk (s.data.take n)

/-- Hex digit test, as in `urllib.parse.unquote`'s `%XX` handling. -/
def isHexDigitChar (c : Char) : Bool :=
  c.isDigit || ('a' ≤ c && c ≤ 'f') || ('A' ≤ c && c ≤ 'F')

/-- Value of a hex digit. -/
def hexVal (c : Char) : Nat :=
  if c.isDigit then c.toNat - '0'.toNat
  else if 'a' ≤ c && c ≤ 'f' then c.toNat - 'a'.toNat + 10
  else c.toNat - 'A'.toNat + 10

/-- Percent-decoding over a character list: a `%` followed by two hex
digits becomes the decoded character, anything else is kept literally
(models `urllib.parse.unquote` byte-wise; multi-byte UTF-8 sequences are
decoded per byte, which is sufficient for the ASCII inputs at stake). -/
def percentDecodeAux : List Char → List Char
  | [] => []
  | '%' :: a :: b :: rest =>
    if isHexDigitChar a && isHexDigitChar b then
      Char.ofNat (16 * hexVal a + hexVal b) :: percentDecodeAux rest
    else
      '%' :: percentDecodeAux (a :: b :: rest)
  | c :: rest => c :: percentDecodeAux rest

/-- `'+'` to space, applied before percent-decoding as in `unquote_plus`. -/
def plusToSpace (c : Char) : Char :=
  if c = '+' then ' ' else c

/-- `urllib.parse.unquote_plus`: replace `+` by space, then percent-decode. -/
def unquote_plus (s : String) : String :=
  String.mk (percentDecodeAux (s.data.map plusToSpace))

/-- `urllib.parse.parse_qs` as an ordered association list
(`parse_qsl` with the default `keep_blank_values=False`): split the query
on `&`, drop empty chunks, split each chunk at the first `=`, drop chunks
without `=` or with an empty value, and unquote names and values. -/
def parse_qsl (qs : String) : List (String × String) :=
  (pySplit qs "&").filterMap (fun chunk =>
    if chunk = "" then none
    else
      match pySplit chunk "=" with
      | [] => none
      | [_] => none
      | name :: vparts =>
        let value := pyJoin "=" vparts
        if value = "" then none
        else some (unquote_plus name, unquote_plus value))

/-- `param in params` / `params[param][0]`: first value recorded for a key
(query order), if the key is present at all. -/
def getFirstParam (ps : List (String × String)) (key : String) : Option String :=
  (ps.find? (fun p => p.1 == key)).map (fun p => p.2)

/-- `urllib.parse.urlparse(u).query` on inputs `urlparse` accepts: the
part after the first `?` of the part before the first `#` (`urlsplit`
removes the netloc before splitting query and fragment, but that never
changes which text is the query).  `urlparse` is not total — it raises
`ValueError` on unbalanced-bracket netlocs; that error path is modelled
separately by `urlparseRaises` and threaded through
`extract_real_url_run`. -/
def urlQuery (u : String) : String :=
  let beforeFrag := (pySplit u "#").headD ""
  match pySplit beforeFrag "?" with
  | [] => ""
  | [_] => ""
  | _ :: rest => pyJoin "?" rest

/-- `urllib.parse.urlparse(u).netloc`: for `scheme://netloc/...` URLs, the
text between `://` and the next `/`, `?` or `#`; empty when `://` is absent. -/
def urlHost (u : String) : String :=
  match pySplit u "://" with
  | [] => ""
  | [_] => ""
  | _ :: r :: rs =>
    String.mk ((pyJoin "://" (r :: rs)).data.takeWhile
      (fun c => !(c = '/' || c = '?' || c = '#')))

/-- The `aclk` arm of `extract_real_url` (server.py lines 696-702): when the
URL contains `google.com/aclk`, the first of `adurl`, `dest`, `url` present
among its query parameters. -/
def aclkLookup (u : String) : Option String :=
  if containsSubstr u "google.com/aclk" then
    ["adurl", "dest", "url"].findSome? (getFirstParam (parse_qsl (urlQuery u)))
  else none

/-- The `google.com/url` arm of `extract_real_url` (lines 704-709): the
first of `url`, `q` present among the query parameters. -/
def urlRedirectLookup (u : String) : Option String :=
  if containsSubstr u "google.com/url" then
    ["url", "q"].findSome? (getFirstParam (parse_qsl (urlQuery u)))
  else none

/-- `extract_real_url` (server.py lines 690-711) on the non-raising
paths: empty input yields `""`; an ad-click redirect yields the first
destination parameter found; a generic redirect yields the first of
`url`/`q`; any other input is returned unchanged.  The unguarded
`urlparse` call can raise; the runnable, raise-included behaviour is
`extract_real_url_run` below. -/
def extract_real_url (google_url : String) : String :=
  if google_url = "" then ""
  else
    match aclkLookup google_url with
    | some v => v
    | none =>
      match urlRedirectLookup google_url with
      | some v => v
      | none => google_url

/-- Scheme characters accepted by `urllib.parse` (`scheme_chars`): ASCII
letters, digits, `+`, `-`, `.`. -/
def isSchemeChar (c : Char) : Bool :=
  c.isAlpha || c.isDigit || c = '+' || c = '-' || c = '.'

/-- The scheme-stripping step of `urllib.parse.urlsplit`: when the text
before the first `:` is nonempty and made of scheme characters only,
parsing continues on the text after that colon; otherwise the URL is
taken whole. -/
def stripScheme (u : String) : String :=
  match pySplit u ":" with
  | pre :: r :: rs =>
    if pre ≠ "" ∧ pre.data.all isSchemeChar then pyJoin ":" (r :: rs) else u
  | _ => u

/-- `_splitnetloc` of `urllib.parse.urlsplit`: the characters of the
scheme-stripped URL between the leading `//` and the next `/`, `?` or
`#`. -/
def splitNetloc (u : String) : List Char :=
  ((stripScheme u).data.drop 2).takeWhile (fun c => !(c = '/' || c = '?' || c = '#'))

/-- Whether `urllib.parse.urlparse` raises `ValueError("Invalid IPv6
URL")` on `u`: after scheme stripping the URL starts with `//`, and the
netloc contains `[` without `]`, or `]` without `[` (the
unbalanced-bracket check in `urlsplit`). -/
def urlparseRaises (u : String) : Bool :=
  if ("//".data).isPrefixOf (stripScheme u).data then
    ((splitNetloc u).contains '[' && !(splitNetloc u).contains ']') ||
      ((splitNetloc u).contains ']' && !(splitNetloc u).contains '[')
  else false

/-- `extract_real_url` as actually runnable, raise included.  In the
Python source, as soon as the input matches a redirect pattern
(`"google.com/aclk" in u` at line 696, or `"google.com/url" in u` at
line 704) the function calls `urlparse` with no `try/except`, before any
parameter can be returned, so a `ValueError` from `urlparse` propagates
out of `extract_real_url`; on every non-raising path the function
behaves as the total `extract_real_url` above. -/
def extract_real_url_run (google_url : String) : Except String String :=
  if google_url = "" then .ok ""
  else if (containsSubstr google_url "google.com/aclk" ||
      containsSubstr google_url "google.com/url") && urlparseRaises google_url then
    .error "Invalid IPv6 URL"
  else .ok (extract_real_url google_url)

/-- An ad record as built by `extract_modern_ad_data` and enriched by
`capture_landing_screenshots`: only the fields the claims are about.
`link`/`title` are required for a candidate to be kept; `position` is
assigned after the merge (`"position": 0` before); the two screenshot
fields are absent (`none`) until enrichment runs. -/
structure Ad where
  link : String
  title : String
  position : Nat := 0
  landing_page_screenshot_base64 : Option String := none
  screenshot_error : Option String := none
deriving DecidableEq

/-- The `location_map` of `scan_google_for_sponsored_ads` (lines 216-231),
restricted to the `domain` entry; unrecognised codes fall back to `us`. -/
def locationDomain (location : String) : String :=
  if location = "us" then "google.com"
  else if location = "uk" then "google.co.uk"
  else if location = "ca" then "google.ca"
  else if location = "au" then "google.com.au"
  else if location = "de" then "google.de"
  else if location = "fr" then "google.fr"
  else if location = "es" then "google.es"
  else if location = "it" then "google.it"
  else if location = "br" then "google.com.br"
  else if location = "mx" then "google.com.mx"
  else if location = "in" then "google.co.in"
  else if location = "jp" then "google.co.jp"
  else "google.com"

/-- Acceptance test applied by all three strategies before a candidate is
emitted (lines 447-450, 487-488, 524-525): nonempty link and title, and
the link must not contain the literal substring `"google.com"`. -/
def acceptAd (a : Ad) : Bool :=
  a.link != "" && a.title != "" && !containsSubstr a.link "google.com"

/-- The per-strategy output filter: candidates passing `acceptAd`. -/
def filterCandidateAds (cands : List Ad) : List Ad :=
  cands.filter acceptAd

/-- One step of the aggregator (lines 342-344 and the two twin loops):
append the candidate unless some already-merged ad has the same link. -/
def dedupMerge (all_ads : List Ad) (ad : Ad) : List Ad :=
  if all_ads.any (fun a => a.link == ad.link) then all_ads else all_ads ++ [ad]

/-- Merging a batch of candidates into the running set, in order. -/
def mergeCands (all_ads : List Ad) (cands : List Ad) : List Ad :=
  cands.foldl dedupMerge all_ads

/-- The page loop of `scan_google_for_sponsored_ads` (lines 302-365):
`pages n` is the candidate batch of result page `n` (the three strategies'
outputs concatenated), or the exception its navigation raised.  Returns
the merged ads, the number of pages scanned, and the swallowed page-level
error, if any (lines 367-370).  The loop stops when the page budget runs
out, when a page raises, or when the merged count reaches 10 (line 364). -/
def scanLoop (pages : Nat → Except String (List Ad)) :
    Nat → Nat → List Ad → List Ad × Nat × Option String
  | 0, page_num, all_ads => (all_ads, page_num, none)
  | fuel + 1, page_num, all_ads =>
    match pages page_num with
    | .error e => (all_ads, page_num, some e)
    | .ok cands =>
      let merged := mergeCands all_ads cands
      if 10 ≤ merged.length then (merged, page_num + 1, none)
      else scanLoop pages fuel (page_num + 1) merged

/-- `enumerate`-style position assignment (lines 374-376), starting at `n`. -/
def assignPositionsGo : Nat → List Ad → List Ad
  | _, [] => []
  | n, a :: rest => { a with position := n } :: assignPositionsGo (n + 1) rest

/-- `ad["position"] = i + 1` over the merged list (lines 374-376). -/
def assignPositions (l : List Ad) : List Ad :=
  assignPositionsGo 1 l

/-- `scan_google_for_sponsored_ads` (lines 203-378) as a function of the
per-page candidate batches: run the page loop, then assign positions. -/
def scan_google_for_sponsored_ads (pages : Nat → Except String (List Ad))
    (max_pages : Nat) : List Ad × Nat × Option String :=
  let r := scanLoop pages max_pages 0 []
  (assignPositions r.1, r.2.1, r.2.2)

/-- Screenshot enrichment of one ad (lines 728-754): ads without a link
are skipped unchanged; otherwise `shot` is the navigate-and-capture
outcome for the landing URL — on success the image is attached, on
failure the screenshot field is set to `None` and the error recorded. -/
def captureOne (shot : String → Except String String) (ad : Ad) : Ad :=
  if ad.link = "" then ad
  else
    match shot ad.link with
    | .ok img => { ad with landing_page_screenshot_base64 := some img }
    | .error e => { ad with landing_page_screenshot_base64 := none, screenshot_error := some e }

/-- `capture_landing_screenshots` (lines 714-758): every ad of the input
list is processed independently and the whole list is returned. -/
def capture_landing_screenshots (ads : List Ad) (shot : String → Except String String) :
    List Ad :=
  ads.map (captureOne shot)

/-- The request model (lines 114-118) with its field defaults. -/
structure SearchRequest where
  api_key : String
  keyword : String
  location : String := "us"
  num_results : Nat := 10

/-- The debug-info entries the claims are about. -/
structure DebugInfo where
  pages_scanned : Nat := 0
  scan_error : Option String := none
deriving DecidableEq

/-- The response envelope (lines 121-128), restricted to the fields the
claims are about. -/
structure SearchResponse where
  success : Bool
  ads : List Ad
  error : Option String := none
  debug_info : DebugInfo := {}
deriving DecidableEq

/-- `search_ads` (lines 142-200): `launch` is the outcome of everything
that can fail before/outside the swallowed page loop (browser startup);
on failure the handler at lines 189-200 returns `success=False` with an
empty ad list, the message, and the debug trace accumulated so far.
Otherwise the scan's ads are truncated to `num_results` (line 175) and
enriched with landing screenshots (line 178). -/
def search_ads (launch : Except String Unit) (pages : Nat → Except String (List Ad))
    (max_pages : Nat) (req : SearchRequest) (shot : String → Except String String) :
    SearchResponse :=
  match launch with
  | .error e => { success := false, ads := [], error := some e, debug_info := {} }
  | .ok _ =>
    let r := scan_google_for_sponsored_ads pages max_pages
    let limited := r.1.take req.num_results
    { success := true
      ads := capture_landing_screenshots limited shot
      error := none
      debug_info := { pages_scanned := r.2.1, scan_error := r.2.2 } }

/-- `ad_data["title"] = title.strip()` (line 587): the stored headline is
the stripped raw headline text. -/
def extract_ad_title (title : String) : String :=
  pyStrip title

/-- The description loop of `extract_modern_ad_data` (lines 620-633):
`cands` are the text contents found by the description selectors, in
selector order; the first nonempty text of length strictly above 30 that
does not contain `"Sponsored"` is kept, stripped and capped at 500. -/
def extract_description : List String → Option String
  | [] => none
  | desc :: rest =>
    if desc ≠ "" ∧ 30 < pyLen desc ∧ containsSubstr desc "Sponsored" = false then
      some (pyTake (pyStrip desc) 500)
    else
      extract_description rest

/-- A sitelink record `{title, link}` (lines 660-663). -/
structure Sitelink where
  title : String
  link : String
deriving DecidableEq

/-- The sitelink gathering loop (lines 639-665): `anchors` are the
`(href, text)` pairs of the anchors inside the ad element, `title` the
raw headline text.  Anchors with empty href or text, with text equal to
the raw title, with text longer than 50 characters, or with a
non-redirect Google href are skipped; the rest are resolved and kept
when the resolved URL and the stripped text are nonempty. -/
def sitelinkRaw (title : String) (anchors : List (String × String)) : List Sitelink :=
  anchors.filterMap (fun a =>
    if a.1 = "" ∨ a.2 = "" then none
    else if a.2 = title then none
    else if 50 < pyLen a.2 then none
    else if containsSubstr a.1 "google.com" = true ∧ containsSubstr a.1 "aclk" = false then none
    else if extract_real_url a.1 ≠ "" ∧ pyStrip a.2 ≠ "" then
      some ⟨pyStrip a.2, extract_real_url a.1⟩
    else none)

/-- The dedup-and-cap loop over gathered sitelinks (lines 668-675):
`seen` holds the titles already kept; a new title is appended and the
loop breaks as soon as six sitelinks are kept. -/
def sitelinkDedup (seen : List String) (acc : List Sitelink) :
    List Sitelink → List Sitelink
  | [] => acc
  | sl :: rest =>
    if sl.title ∈ seen then sitelinkDedup seen acc rest
    else if 6 ≤ (acc ++ [sl]).length then acc ++ [sl]
    else sitelinkDedup (sl.title :: seen) (acc ++ [sl]) rest

/-- Sitelink extraction for one ad element (lines 636-678). -/
def extract_sitelinks (title : String) (anchors : List (String × String)) : List Sitelink :=
  sitelinkDedup [] [] (sitelinkRaw title anchors)

/-- A page source whose navigations never fail: every page yields its
candidate batch. -/
def okPages (source : Nat → List Ad) : Nat → Except String (List Ad) :=
  fun n => .ok (source n)

/-- Modelled from the spec's words (claim C8), for comparison with the
code's `extract_description`: the first candidate block whose length is
at least 30, which does not duplicate the ad's title and does not
contain the sponsorship label, normalised the same way. -/
def claimed_description (title : String) (cands : List String) : Option String :=
  (cands.find? (fun d =>
    decide (30 ≤ pyLen d) && d != title && !containsSubstr d "Sponsored")).map
    (fun d => pyTake (pyStrip d) 500)

/-- Two candidates sharing a title but not a link (claim C1 inputs). -/
def c1a : Ad := { link := "https://a.example", title := "Same Title" }

/-- See `c1a`. -/
def c1b : Ad := { link := "https://b.example", title := "Same Title" }

/-- Claim C2 input: an ad surfacing only on the third result page. -/
def c2ad : Ad := { link := "https://adc2.example", title := "AdC2" }

/-- Claim C2 input: pages 0 and 1 contribute nothing, page 2 one ad. -/
def c2pages : Nat → Except String (List Ad) :=
  fun n => if n = 2 then .ok [c2ad] else .ok []

/-- Claim C3 input: a candidate whose resolved link points into the
`de` locale's own search domain. -/
def c3ad : Ad := { link := "https://google.de/search?q=x", title := "Hotels" }

/-- Claim C3 witness input: an ordinary merchant candidate. -/
def c3ok : Ad := { link := "https://shop.example/deal", title := "Shop" }

/-- Claim C7 input: an ad found on page 0. -/
def c7ad : Ad := { link := "https://site.example/lp", title := "Casino" }

/-- Claim C7 input: page 0 succeeds, every later navigation raises. -/
def c7pages : Nat → Except String (List Ad) :=
  fun n => if n = 0 then .ok [c7ad] else .error "nav crash"

/-- Claim C7 input: screenshot capture always succeeds. -/
def c7shot : String → Except String String :=
  fun _ => .ok "img-bytes"

/-- The ad of `c7ad` after merge, position assignment and enrichment. -/
def c7enriched : Ad :=
  { link := "https://site.example/lp", title := "Casino", position := 1,
    landing_page_screenshot_base64 := some "img-bytes" }

/-- Claim C8 input: a 31-character text block equal to the ad's title. -/
def c8title : String := "AAAAAAAAAAAAAAAAAAAAAAAAAAAAAAA"

/-- Claim C8 witness input: a long label-free description block. -/
def c8long : String := "This casino welcome bonus text is long."

/-- Claim C9 input: two ads, the second of which has a failing landing page. -/
def c9ads : List Ad :=
  [{ link := "https://ok.example", title := "OK" },
   { link := "https://bad.example", title := "Bad" }]

/-- Claim C9 input: capture fails exactly on the second ad's link. -/
def c9shot : String → Except String String :=
  fun u => if u = "https://bad.example" then .error "timeout" else .ok "img"

lemma dedupMerge_mem_acc {acc : List Ad} {c a : Ad} (h : a ∈ acc) : a ∈ dedupMerge acc c := by
  unfold dedupMerge
  split
  · exact h
  · exact List.mem_append_left _ h

lemma mergeCands_mem_acc : ∀ (cs acc : List Ad) (a : Ad), a ∈ acc → a ∈ mergeCands acc cs := by
  intro cs
  induction cs with
  | nil => intro acc a h; exact h
  | cons c cs ih => intro acc a h; exact ih (dedupMerge acc c) a (dedupMerge_mem_acc h)

lemma dedupMerge_pairwise {acc : List Ad} {c : Ad}
    (h : acc.Pairwise (fun a b => a.link ≠ b.link)) :
    (dedupMerge acc c).Pairwise (fun a b => a.link ≠ b.link) := by
  unfold dedupMerge
  split
  · exact h
  · rename_i hany
    refine List.pairwise_append.2 ⟨h, by simp, ?_⟩
    intro a ha b hb
    have hb2 : b = c := by simpa using hb
    subst hb2
    intro heq
    exact hany (List.any_eq_true.2 ⟨a, ha, by simp [heq]⟩)

lemma mergeCands_pairwise : ∀ (cs acc : List Ad),
    acc.Pairwise (fun a b => a.link ≠ b.link) →
    (mergeCands acc cs).Pairwise (fun a b => a.link ≠ b.link) := by
  intro cs
  induction cs with
  | nil => intro acc h; exact h
  | cons c cs ih => intro acc h; exact ih _ (dedupMerge_pairwise h)

lemma mergeCands_covers : ∀ (cs acc : List Ad) (c : Ad), c ∈ cs →
    ∃ a ∈ mergeCands acc cs, a.link = c.link := by
  intro cs
  induction cs with
  | nil => intro acc c h; cases h
  | cons d cs ih =>
    intro acc c hc
    rcases List.mem_cons.1 hc with rfl | hc2
    · by_cases hany : acc.any (fun a => a.link == c.link) = true
      · obtain ⟨a, ha, hpa⟩ := List.any_eq_true.1 hany
        refine ⟨a, mergeCands_mem_acc cs _ a (dedupMerge_mem_acc ha), ?_⟩
        simpa using hpa
      · have hmem : c ∈ dedupMerge acc c := by
          unfold dedupMerge
          rw [if_neg hany]
          exact List.mem_append_right _ (by simp)
        exact ⟨c, mergeCands_mem_acc cs _ c hmem, rfl⟩
    · exact ih _ c hc2

lemma dedupMerge_sub {acc : List Ad} {c a : Ad} (h : a ∈ dedupMerge acc c) :
    a ∈ acc ∨ a = c := by
  unfold dedupMerge at h
  split at h
  · exact Or.inl h
  · rcases List.mem_append.1 h with h2 | h2
    · exact Or.inl h2
    · exact Or.inr (by simpa using h2)

lemma mergeCands_sub : ∀ (cs acc : List Ad) (a : Ad),
    a ∈ mergeCands acc cs → a ∈ acc ∨ a ∈ cs := by
  intro cs
  induction cs with
  | nil => intro acc a h; exact Or.inl h
  | cons c cs ih =>
    intro acc a h
    rcases ih _ a h with h2 | h2
    · rcases dedupMerge_sub h2 with h3 | h3
      · exact Or.inl h3
      · exact Or.inr (by simp [h3])
    · exact Or.inr (List.mem_cons_of_mem _ h2)

/-- Claim C1 counterexample: two candidates that share a title but not a
link are both kept by the aggregator, so the final merged set does contain
two distinct Ads with equal titles — a title match is never grounds for
merge-time deduplication in the code (lines 342-358 compare links only). -/
theorem C1_counterexample :
    mergeCands [] [c1a, c1b] = [c1a, c1b] ∧ c1a.title = c1b.title ∧ c1a.link ≠ c1b.link := by
  refine ⟨by decide, by decide, by decide⟩

/-- Claim C1 (amended): the aggregator deduplicates by link only — the
final merged set holds exactly one Ad per distinct candidate link (links
are pairwise distinct, every candidate's link is represented, and every
merged Ad is one of the candidates); titles are never consulted. -/
theorem C1_amended_thm : ∀ cands : List Ad,
    (mergeCands [] cands).Pairwise (fun a b => a.link ≠ b.link) ∧
    (∀ c ∈ cands, ∃ a ∈ mergeCands [] cands, a.link = c.link) ∧
    (∀ a ∈ mergeCands [] cands, a ∈ cands) := by
  intro cands
  refine ⟨mergeCands_pairwise cands [] (by simp), ?_, ?_⟩
  · intro c hc
    exact mergeCands_covers cands [] c hc
  · intro a ha
    rcases mergeCands_sub cands [] a ha with h | h
    · cases h
    · exact h

/-- Witness for claim C1's amended theorem at a concrete candidate set. -/
theorem C1_amended_witness :
    (mergeCands [] [c1a]).Pairwise (fun a b => a.link ≠ b.link) ∧
    (∃ a ∈ mergeCands [] [c1a], a.link = c1a.link) := by
  exact ⟨(C1_amended_thm [c1a]).1, (C1_amended_thm [c1a]).2.1 c1a (by decide)⟩

lemma length_assignPositionsGo : ∀ (l : List Ad) (n : Nat),
    (assignPositionsGo n l).length = l.length := by
  intro l
  induction l with
  | nil => intro n; rfl
  | cons a rest ih => intro n; simp [assignPositionsGo, ih]

lemma scanLoop_okPages_succ (source : Nat → List Ad) (n p : Nat) (acc : List Ad) :
    scanLoop (okPages source) (n + 1) p acc =
      if 10 ≤ (mergeCands acc (source p)).length then (mergeCands acc (source p), p + 1, none)
      else scanLoop (okPages source) n (p + 1) (mergeCands acc (source p)) := rfl

lemma scanLoop_budget : ∀ (source : Nat → List Ad) (fuel p : Nat) (acc : List Ad),
    (scanLoop (okPages source) fuel p acc).2.1 = p + fuel ∨
    10 ≤ (scanLoop (okPages source) fuel p acc).1.length := by
  intro source fuel
  induction fuel with
  | zero => intro p acc; left; rfl
  | succ n ih =>
    intro p acc
    rw [scanLoop_okPages_succ]
    by_cases h10 : 10 ≤ (mergeCands acc (source p)).length
    · right
      rw [if_pos h10]
      exact h10
    · rw [if_neg h10]
      rcases ih (p + 1) (mergeCands acc (source p)) with h | h
      · left
        rw [h]
        omega
      · right
        exact h

/-- Claim C2 counterexample: with the default three-page budget, pages 0
and 1 contribute zero new ads, yet the loop still scans page 2 (the scan
reports three pages scanned and returns page 2's ad) — the code keeps no
`consecutiveEmptyPages` counter and never stops on empty pages. -/
theorem C2_counterexample :
    c2pages 0 = .ok [] ∧ c2pages 1 = .ok [] ∧
    (scan_google_for_sponsored_ads c2pages 3).2.1 = 3 ∧
    (scan_google_for_sponsored_ads c2pages 3).1 = [{ c2ad with position := 1 }] := by
  refine ⟨rfl, rfl, rfl, by decide⟩

/-- Claim C2 (amended): the page loop has no empty-page termination rule
at all — over any failure-free page source it stops only when the page
budget `max_pages` is exhausted or the accumulated ad count has reached
10; in particular pages contributing zero new ads never end the scan. -/
theorem C2_amended_thm : ∀ (source : Nat → List Ad) (max_pages : Nat),
    (scan_google_for_sponsored_ads (okPages source) max_pages).2.1 = max_pages ∨
    10 ≤ (scan_google_for_sponsored_ads (okPages source) max_pages).1.length := by
  intro s m
  rcases scanLoop_budget s m 0 [] with h | h
  · left
    show (scanLoop (okPages s) m 0 []).2.1 = m
    omega
  · right
    show 10 ≤ (assignPositions (scanLoop (okPages s) m 0 []).1).length
    rw [assignPositions, length_assignPositionsGo]
    exact h

/-- Claim C3 counterexample: for a session on the `de` locale (domain
`google.de`), a candidate whose resolved link's host is exactly the
engine's own host passes the strategies' filter — the code only rejects
links containing the literal substring `"google.com"` (lines 449, 488),
regardless of which locale domain the session used. -/
theorem C3_counterexample :
    filterCandidateAds [c3ad] = [c3ad] ∧ urlHost c3ad.link = locationDomain "de" := by
  refine ⟨by decide, by decide⟩

/-- Claim C3 (amended): every Ad surviving the strategies' filter has a
nonempty link and title and a link that does not contain the literal
substring `"google.com"`; the check is this fixed substring test, not a
host comparison against the session's locale domain, so links into other
Google country domains can remain in the output. -/
theorem C3_amended_thm : ∀ (cands : List Ad) (a : Ad), a ∈ filterCandidateAds cands →
    containsSubstr a.link "google.com" = false ∧ a.link ≠ "" ∧ a.title ≠ "" := by
  intro cands a ha
  have h := (List.mem_filter.1 ha).2
  unfold acceptAd at h
  simp only [Bool.and_eq_true, bne_iff_ne, Bool.not_eq_true'] at h
  exact ⟨h.2, h.1.1, h.1.2⟩

/-- Witness for claim C3's amended theorem at a concrete candidate. -/
theorem C3_amended_witness :
    containsSubstr c3ok.link "google.com" = false ∧ c3ok.link ≠ "" ∧ c3ok.title ≠ "" := by
  exact C3_amended_thm [c3ok] c3ok (by decide)

lemma aclk_ne_empty {u : String} (h1 : containsSubstr u "google.com/aclk" = true) :
    u ≠ "" := by
  intro he
  subst he
  exact absurd h1 (by decide)

lemma extract_real_url_aclk_param (u v : String)
    (h1 : containsSubstr u "google.com/aclk" = true)
    (h2 : getFirstParam (parse_qsl (urlQuery u)) "adurl" = some v) :
    extract_real_url u = v := by
  have ha : aclkLookup u = some v := by
    unfold aclkLookup
    rw [if_pos h1]
    simp only [List.findSome?, h2]
  unfold extract_real_url
  rw [if_neg (aclk_ne_empty h1), ha]

lemma extract_real_url_unmatched (u : String)
    (h1 : containsSubstr u "google.com/aclk" = false)
    (h2 : containsSubstr u "google.com/url" = false) :
    extract_real_url u = u := by
  by_cases hu : u = ""
  · subst hu; rfl
  · have ha : aclkLookup u = none := by simp [aclkLookup, h1]
    have hb : urlRedirectLookup u = none := by simp [urlRedirectLookup, h2]
    unfold extract_real_url
    rw [if_neg hu, ha, hb]

lemma extract_real_url_noparam (u : String)
    (ha : aclkLookup u = none) (hb : urlRedirectLookup u = none) :
    extract_real_url u = u := by
  by_cases hu : u = ""
  · subst hu; rfl
  · unfold extract_real_url
    rw [if_neg hu, ha, hb]

/-- Claim C4 counterexample: the resolver is not exception-free — on
`"http://[x/google.com/aclk?adurl=y"` the input matches the ad-click
pattern, so the unguarded `urlparse` call at line 697 is reached and
raises `ValueError("Invalid IPv6 URL")` (netloc `[x` has an unbalanced
bracket); the exception propagates out of `extract_real_url` instead of
the input being returned unchanged. -/
theorem C4_counterexample :
    extract_real_url_run "http://[x/google.com/aclk?adurl=y" = .error "Invalid IPv6 URL" ∧
    containsSubstr "http://[x/google.com/aclk?adurl=y" "google.com/aclk" = true := by
  refine ⟨rfl, by decide⟩

/-- Claim C4 (amended): the redirect resolver returns the ad-destination
parameter (`adurl` first, ahead of the generic names) whenever the URL
is an ad-click redirect that `urlparse` accepts; URLs matching neither
redirect pattern come back unchanged without any `urlparse` call, hence
without raising; a pattern-matching URL that `urlparse` accepts but that
carries no extractable destination parameter degrades to the input
unchanged; but the resolver is not exception-free — when the URL matches
a redirect pattern and fails `urlparse`'s bracket check, the unguarded
`urlparse` call raises `ValueError` and the exception propagates. -/
theorem C4_amended_thm :
    (∀ (u v : String), containsSubstr u "google.com/aclk" = true →
      urlparseRaises u = false →
      getFirstParam (parse_qsl (urlQuery u)) "adurl" = some v →
      extract_real_url_run u = .ok v) ∧
    (∀ u : String, containsSubstr u "google.com/aclk" = false →
      containsSubstr u "google.com/url" = false →
      extract_real_url_run u = .ok u) ∧
    (∀ u : String, urlparseRaises u = false → aclkLookup u = none →
      urlRedirectLookup u = none → extract_real_url_run u = .ok u) ∧
    (∀ u : String, urlparseRaises u = true →
      containsSubstr u "google.com/aclk" = true →
      extract_real_url_run u = .error "Invalid IPv6 URL") ∧
    extract_real_url_run "https://www.google.com/aclk?sa=L&adurl=https://example.com/x"
      = .ok "https://example.com/x" := by
  refine ⟨?_, ?_, ?_, ?_, rfl⟩
  · intro u v h1 hr h2
    have hcond : ¬(((containsSubstr u "google.com/aclk" ||
        containsSubstr u "google.com/url") && urlparseRaises u) = true) := by
      simp [hr]
    unfold extract_real_url_run
    rw [if_neg (aclk_ne_empty h1), if_neg hcond, extract_real_url_aclk_param u v h1 h2]
  · intro u h1 h2
    by_cases hu : u = ""
    · subst hu; rfl
    · have hcond : ¬(((containsSubstr u "google.com/aclk" ||
          containsSubstr u "google.com/url") && urlparseRaises u) = true) := by
        simp [h1, h2]
      unfold extract_real_url_run
      rw [if_neg hu, if_neg hcond, extract_real_url_unmatched u h1 h2]
  · intro u hr ha hb
    by_cases hu : u = ""
    · subst hu; rfl
    · have hcond : ¬(((containsSubstr u "google.com/aclk" ||
          containsSubstr u "google.com/url") && urlparseRaises u) = true) := by
        simp [hr]
      unfold extract_real_url_run
      rw [if_neg hu, if_neg hcond, extract_real_url_noparam u ha hb]
  · intro u hr h1
    have hcond : ((containsSubstr u "google.com/aclk" ||
        containsSubstr u "google.com/url") && urlparseRaises u) = true := by
      simp [hr, h1]
    unfold extract_real_url_run
    rw [if_neg (aclk_ne_empty h1), if_pos hcond]

/-- Witness for claim C4's amended theorem at concrete inputs: a
well-formed ad-click redirect, a non-redirect URL, and the raising
unbalanced-bracket redirect. -/
theorem C4_amended_witness :
    extract_real_url_run "https://www.google.com/aclk?sa=L&adurl=https://example.com/x"
      = .ok "https://example.com/x" ∧
    extract_real_url_run "https://merchant.example/product?id=7"
      = .ok "https://merchant.example/product?id=7" ∧
    extract_real_url_run "http://[x/google.com/aclk?adurl=y"
      = .error "Invalid IPv6 URL" := by
  exact ⟨C4_amended_thm.1 _ "https://example.com/x" (by decide) (by decide) (by decide),
    (C4_amended_thm.2.1 "https://merchant.example/product?id=7" (by decide) (by decide)),
    (C4_amended_thm.2.2.2.1 "http://[x/google.com/aclk?adurl=y" (by decide) (by decide))⟩

lemma sitelinkDedup_length : ∀ (l : List Sitelink) (seen : List String) (acc : List Sitelink),
    acc.length ≤ 5 → (sitelinkDedup seen acc l).length ≤ 6 := by
  intro l
  induction l with
  | nil =>
    intro seen acc h
    unfold sitelinkDedup
    omega
  | cons sl rest ih =>
    intro seen acc h
    unfold sitelinkDedup
    split
    · exact ih seen acc h
    · split
      · simp only [List.length_append, List.length_singleton]
        omega
      · rename_i h6
        apply ih
        simp only [List.length_append, List.length_singleton] at h6 ⊢
        omega

lemma sitelinkDedup_pairwise : ∀ (l : List Sitelink) (seen : List String) (acc : List Sitelink),
    (∀ a ∈ acc, a.title ∈ seen) → acc.Pairwise (fun x y => x.title ≠ y.title) →
    (sitelinkDedup seen acc l).Pairwise (fun x y => x.title ≠ y.title) := by
  intro l
  induction l with
  | nil =>
    intro seen acc _ hp
    exact hp
  | cons sl rest ih =>
    intro seen acc hseen hp
    unfold sitelinkDedup
    split
    · exact ih seen acc hseen hp
    · rename_i hnot
      have hp2 : (acc ++ [sl]).Pairwise (fun x y => x.title ≠ y.title) := by
        refine List.pairwise_append.2 ⟨hp, by simp, ?_⟩
        intro x hx y hy
        have hy2 : y = sl := by simpa using hy
        subst hy2
        intro he
        exact hnot (he ▸ hseen x hx)
      split
      · exact hp2
      · refine ih _ _ ?_ hp2
        intro a ha
        rcases List.mem_append.1 ha with h | h
        · exact List.mem_cons_of_mem _ (hseen a h)
        · have ha2 : a = sl := by simpa using h
          subst ha2
          exact List.mem_cons_self _ _

lemma sitelinkDedup_sub : ∀ (l : List Sitelink) (seen : List String) (acc : List Sitelink)
    (x : Sitelink), x ∈ sitelinkDedup seen acc l → x ∈ acc ∨ x ∈ l := by
  intro l
  induction l with
  | nil =>
    intro seen acc x h
    exact Or.inl h
  | cons sl rest ih =>
    intro seen acc x h
    unfold sitelinkDedup at h
    split at h
    · rcases ih _ _ _ h with h2 | h2
      · exact Or.inl h2
      · exact Or.inr (List.mem_cons_of_mem _ h2)
    · split at h
      · rcases List.mem_append.1 h with h2 | h2
        · exact Or.inl h2
        · have hx : x = sl := by simpa using h2
          subst hx
          exact Or.inr (List.mem_cons_self _ _)
      · rcases ih _ _ _ h with h2 | h2
        · rcases List.mem_append.1 h2 with h3 | h3
          · exact Or.inl h3
          · have hx : x = sl := by simpa using h3
            subst hx
            exact Or.inr (List.mem_cons_self _ _)
        · exact Or.inr (List.mem_cons_of_mem _ h2)

lemma sitelinkRaw_src : ∀ (title : String) (anchors : List (String × String)) (x : Sitelink),
    x ∈ sitelinkRaw title anchors → ∃ a ∈ anchors, a.2 ≠ title ∧ x.title = pyStrip a.2 := by
  intro title anchors x hx
  unfold sitelinkRaw at hx
  obtain ⟨a, ha, hfa⟩ := List.mem_filterMap.1 hx
  refine ⟨a, ha, ?_⟩
  by_cases h1 : a.1 = "" ∨ a.2 = ""
  · rw [if_pos h1] at hfa; cases hfa
  rw [if_neg h1] at hfa
  by_cases h2 : a.2 = title
  · rw [if_pos h2] at hfa; cases hfa
  rw [if_neg h2] at hfa
  by_cases h3 : 50 < pyLen a.2
  · rw [if_pos h3] at hfa; cases hfa
  rw [if_neg h3] at hfa
  by_cases h4 : containsSubstr a.1 "google.com" = true ∧ containsSubstr a.1 "aclk" = false
  · rw [if_pos h4] at hfa; cases hfa
  rw [if_neg h4] at hfa
  by_cases h5 : extract_real_url a.1 ≠ "" ∧ pyStrip a.2 ≠ ""
  · rw [if_pos h5] at hfa
    refine ⟨h2, ?_⟩
    cases hfa
    rfl
  · rw [if_neg h5] at hfa; cases hfa

/-- Claim C5 counterexample: the raw headline text is `"Foo "` (trailing
space), so the stored Ad title is `"Foo"`; an anchor with text `"Foo"`
differs from the raw title, survives the `sl_text == title` skip (line
649, which compares unstripped texts), and ends up as a sitelink whose
title equals the Ad's own title. -/
theorem C5_counterexample :
    extract_sitelinks "Foo " [("https://ex.example/a", "Foo")]
      = [⟨"Foo", "https://ex.example/a"⟩] ∧
    extract_ad_title "Foo " = "Foo" := by
  refine ⟨by decide, by decide⟩

/-- Claim C5 (amended): every extracted sitelink list has at most 6
entries and pairwise-distinct titles, and each entry's title is the
stripped text of some anchor whose raw text differs from the raw
headline; since the Ad's stored title is the stripped headline, a
sitelink title may still coincide with the Ad's title when the two
texts differ only in surrounding whitespace. -/
theorem C5_amended_thm : ∀ (title : String) (anchors : List (String × String)),
    (extract_sitelinks title anchors).length ≤ 6 ∧
    (extract_sitelinks title anchors).Pairwise (fun x y => x.title ≠ y.title) ∧
    (∀ sl ∈ extract_sitelinks title anchors,
      ∃ a ∈ anchors, a.2 ≠ title ∧ sl.title = pyStrip a.2) := by
  intro title anchors
  refine ⟨sitelinkDedup_length _ _ _ (by simp),
    sitelinkDedup_pairwise _ _ _ (by simp) (by simp), ?_⟩
  intro sl hsl
  rcases sitelinkDedup_sub _ _ _ sl hsl with h | h
  · cases h
  · exact sitelinkRaw_src title anchors sl h

/-- Witness for claim C5's amended theorem at a concrete element. -/
theorem C5_amended_witness :
    (extract_sitelinks "Main" [("https://x.example/a", "Alpha")]).length ≤ 6 ∧
    (∃ a ∈ [("https://x.example/a", "Alpha")], a.2 ≠ "Main" ∧
      (Sitelink.mk "Alpha" "https://x.example/a").title = pyStrip a.2) := by
  exact ⟨(C5_amended_thm "Main" [("https://x.example/a", "Alpha")]).1,
    (C5_amended_thm "Main" [("https://x.example/a", "Alpha")]).2.2
      ⟨"Alpha", "https://x.example/a"⟩ (by decide)⟩

lemma extract_description_src : ∀ (cands : List String) (d : String),
    extract_description cands = some d →
    ∃ c ∈ cands, 30 < pyLen c ∧ containsSubstr c "Sponsored" = false ∧
      d = pyTake (pyStrip c) 500 := by
  intro cands
  induction cands with
  | nil => intro d h; cases h
  | cons x rest ih =>
    intro d h
    unfold extract_description at h
    split at h
    · rename_i hcond
      obtain ⟨h1, h2, h3⟩ := hcond
      refine ⟨x, by simp, h2, h3, ?_⟩
      exact (Option.some.inj h).symm
    · obtain ⟨c, hc, hrest⟩ := ih d h
      exact ⟨c, List.mem_cons_of_mem _ hc, hrest⟩

lemma pyLen_ne_empty {c : String} (h : 30 < pyLen c) : c ≠ "" := by
  intro he
  subst he
  exact absurd h (by decide)

lemma extract_description_first : ∀ (pre : List String) (c : String) (post : List String),
    (∀ p ∈ pre, ¬(30 < pyLen p ∧ containsSubstr p "Sponsored" = false)) →
    30 < pyLen c → containsSubstr c "Sponsored" = false →
    extract_description (pre ++ c :: post) = some (pyTake (pyStrip c) 500) := by
  intro pre
  induction pre with
  | nil =>
    intro c post _ h2 h3
    show extract_description (c :: post) = _
    unfold extract_description
    rw [if_pos ⟨pyLen_ne_empty h2, h2, h3⟩]
  | cons p pre ih =>
    intro c post hpre h2 h3
    have hp := hpre p (by simp)
    have hnp : ¬(p ≠ "" ∧ 30 < pyLen p ∧ containsSubstr p "Sponsored" = false) := by
      intro hand
      exact hp ⟨hand.2.1, hand.2.2⟩
    show extract_description (p :: (pre ++ c :: post)) = _
    unfold extract_description
    rw [if_neg hnp]
    exact ih c post (fun q hq => hpre q (List.mem_cons_of_mem _ hq)) h2 h3

/-- Claim C8 counterexample: a 31-character candidate block equal to the
ad's own title is attached as the description (the code never compares
the block against the title, line 629), whereas the claimed rule — first
block of length at least 30 that does not duplicate the title — would
attach nothing here. -/
theorem C8_counterexample :
    extract_description [c8title] = some c8title ∧
    claimed_description c8title [c8title] = none ∧
    extract_ad_title c8title = c8title ∧
    30 < pyLen c8title := by
  refine ⟨by decide, by decide, by decide, by decide⟩

/-- Claim C8 (amended): whenever the extractor attaches a description, it
is the first candidate text block whose length is strictly greater than
30 and which does not contain the sponsorship label, stripped and capped
at 500 characters; the ad's title is not consulted (a description may
duplicate it), and blocks of length ≤ 30 or containing the label are
never emitted. -/
theorem C8_amended_thm : ∀ cands : List String,
    (∀ d, extract_description cands = some d →
      ∃ c ∈ cands, 30 < pyLen c ∧ containsSubstr c "Sponsored" = false ∧
        d = pyTake (pyStrip c) 500) ∧
    (∀ (pre : List String) (c : String) (post : List String),
      cands = pre ++ c :: post →
      (∀ p ∈ pre, ¬(30 < pyLen p ∧ containsSubstr p "Sponsored" = false)) →
      30 < pyLen c → containsSubstr c "Sponsored" = false →
      extract_description cands = some (pyTake (pyStrip c) 500)) := by
  intro cands
  constructor
  · intro d h
    exact extract_description_src cands d h
  · intro pre c post hc hpre h2 h3
    subst hc
    exact extract_description_first pre c post hpre h2 h3

/-- Witness for claim C8's amended theorem at a concrete candidate list. -/
theorem C8_amended_witness :
    (∃ c ∈ ["short", c8long], 30 < pyLen c ∧ containsSubstr c "Sponsored" = false ∧
      pyTake (pyStrip c8long) 500 = pyTake (pyStrip c) 500) ∧
    extract_description ["short", c8long] = some (pyTake (pyStrip c8long) 500) := by
  refine ⟨(C8_amended_thm ["short", c8long]).1 (pyTake (pyStrip c8long) 500) (by decide),
    (C8_amended_thm ["short", c8long]).2 ["short"] c8long [] rfl ?_ (by decide) (by decide)⟩
  intro p hp
  have hp2 : p = "short" := by simpa using hp
  subst hp2
  decide

lemma range'_take : ∀ (m n s : Nat), (List.range' s m).take n = List.range' s (min n m) := by
  intro m
  induction m with
  | zero =>
    intro n s
    simp
  | succ m ih =>
    intro n s
    cases n with
    | zero => simp
    | succ n =>
      rw [List.range'_succ, List.take_succ_cons, ih n (s + 1), Nat.succ_min_succ,
        List.range'_succ]

lemma mapPos_assignPositionsGo : ∀ (l : List Ad) (n : Nat),
    (assignPositionsGo n l).map (fun a => a.position) = List.range' n l.length := by
  intro l
  induction l with
  | nil => intro n; rfl
  | cons a rest ih =>
    intro n
    simp only [assignPositionsGo, List.map_cons, List.length_cons, List.range'_succ, ih]

lemma mapLink_assignPositionsGo : ∀ (l : List Ad) (n : Nat),
    (assignPositionsGo n l).map (fun a => (a.link, a.title)) = l.map (fun a => (a.link, a.title)) := by
  intro l
  induction l with
  | nil => intro n; rfl
  | cons a rest ih =>
    intro n
    simp only [assignPositionsGo, List.map_cons, ih]

lemma mapPos_assignPositions (l : List Ad) :
    (assignPositions l).map (fun a => a.position) = List.range' 1 l.length :=
  mapPos_assignPositionsGo l 1

lemma length_assignPositions (l : List Ad) :
    (assignPositions l).length = l.length :=
  length_assignPositionsGo l 1

lemma captureOne_fields (shot : String → Except String String) (a : Ad) :
    (captureOne shot a).link = a.link ∧ (captureOne shot a).title = a.title ∧
    (captureOne shot a).position = a.position := by
  unfold captureOne
  split
  · exact ⟨rfl, rfl, rfl⟩
  · split
    · exact ⟨rfl, rfl, rfl⟩
    · exact ⟨rfl, rfl, rfl⟩

lemma capture_preserve : ∀ (ads : List Ad) (shot : String → Except String String),
    (capture_landing_screenshots ads shot).map (fun a => (a.link, a.title, a.position)) =
      ads.map (fun a => (a.link, a.title, a.position)) := by
  intro ads shot
  induction ads with
  | nil => rfl
  | cons a rest ih =>
    obtain ⟨h1, h2, h3⟩ := captureOne_fields shot a
    simp only [capture_landing_screenshots, List.map_cons] at ih ⊢
    rw [h1, h2, h3, ih]

lemma capture_pos : ∀ (ads : List Ad) (shot : String → Except String String),
    (capture_landing_screenshots ads shot).map (fun a => a.position) =
      ads.map (fun a => a.position) := by
  intro ads shot
  induction ads with
  | nil => rfl
  | cons a rest ih =>
    obtain ⟨-, -, h3⟩ := captureOne_fields shot a
    simp only [capture_landing_screenshots, List.map_cons] at ih ⊢
    rw [h3, ih]

lemma capture_length (ads : List Ad) (shot : String → Except String String) :
    (capture_landing_screenshots ads shot).length = ads.length := by
  simp [capture_landing_screenshots]

/-- Claim C6: in every returned ads list the position fields are exactly
`1..k` for the list's length `k` — contiguous from 1, no gaps or repeats —
including after the list is truncated to the requested number of results;
and position assignment does not reorder the merged set, so positions
reflect final merge order. -/
theorem C6_thm : ∀ (pages : Nat → Except String (List Ad)) (max_pages : Nat)
    (req : SearchRequest) (shot : String → Except String String),
    ((search_ads (.ok ()) pages max_pages req shot).ads.map (fun a => a.position))
      = List.range' 1 ((search_ads (.ok ()) pages max_pages req shot).ads.length) ∧
    ((scan_google_for_sponsored_ads pages max_pages).1.map (fun a => (a.link, a.title)))
      = ((scanLoop pages max_pages 0 []).1.map (fun a => (a.link, a.title))) := by
  intro pages m req shot
  constructor
  · show ((capture_landing_screenshots
        ((assignPositions (scanLoop pages m 0 []).1).take req.num_results) shot).map
          (fun a => a.position))
      = List.range' 1 ((capture_landing_screenshots
          ((assignPositions (scanLoop pages m 0 []).1).take req.num_results) shot).length)
    rw [capture_pos, capture_length, List.map_take, List.length_take,
      mapPos_assignPositions, length_assignPositions, range'_take]
  · exact mapLink_assignPositionsGo (scanLoop pages m 0 []).1 1

/-- Claim C7: the endpoint reports `success=false` only for total
pipeline failure (everything outside the swallowed page loop), and then
with an empty ads list, the error message and the debug trace; any scan
outcome — including a page-level navigation failure after partial
accumulation — yields `success=true` with the partial ads list and the
swallowed error recorded in the debug trail, as the concrete
crash-after-page-0 scenario shows. -/
theorem C7_thm :
    (∀ (e : String) (pages : Nat → Except String (List Ad)) (max_pages : Nat)
      (req : SearchRequest) (shot : String → Except String String),
      search_ads (.error e) pages max_pages req shot
        = { success := false, ads := [], error := some e, debug_info := {} }) ∧
    (∀ (pages : Nat → Except String (List Ad)) (max_pages : Nat)
      (req : SearchRequest) (shot : String → Except String String),
      (search_ads (.ok ()) pages max_pages req shot).success = true ∧
      (search_ads (.ok ()) pages max_pages req shot).error = none ∧
      (search_ads (.ok ()) pages max_pages req shot).ads
        = capture_landing_screenshots
            ((scan_google_for_sponsored_ads pages max_pages).1.take req.num_results) shot ∧
      (search_ads (.ok ()) pages max_pages req shot).debug_info.scan_error
        = (scan_google_for_sponsored_ads pages max_pages).2.2) ∧
    ((search_ads (.ok ()) c7pages 3 { api_key := "k", keyword := "casino" } c7shot).success
        = true ∧
      (search_ads (.ok ()) c7pages 3 { api_key := "k", keyword := "casino" } c7shot).ads
        = [c7enriched] ∧
      (search_ads (.ok ()) c7pages 3 { api_key := "k", keyword := "casino" } c7shot).debug_info
        = { pages_scanned := 1, scan_error := some "nav crash" }) := by
  refine ⟨fun e pages m req shot => rfl, fun pages m req shot => ⟨rfl, rfl, rfl, rfl⟩,
    rfl, by decide, by decide⟩

/-- Claim C9: screenshot enrichment returns all input ads (same length),
and an ad whose capture fails keeps its link, title and position while
getting an empty screenshot field and the error string — a per-item
failure never drops or aborts the rest of the batch. -/
theorem C9_thm : ∀ (ads : List Ad) (shot : String → Except String String)
    (i : Nat) (h : i < ads.length) (e : String),
    (ads.get ⟨i, h⟩).link ≠ "" →
    shot (ads.get ⟨i, h⟩).link = .error e →
    (capture_landing_screenshots ads shot).length = ads.length ∧
    ∃ h2 : i < (capture_landing_screenshots ads shot).length,
      ((capture_landing_screenshots ads shot).get ⟨i, h2⟩).landing_page_screenshot_base64
          = none ∧
      ((capture_landing_screenshots ads shot).get ⟨i, h2⟩).screenshot_error = some e ∧
      ((capture_landing_screenshots ads shot).get ⟨i, h2⟩).link = (ads.get ⟨i, h⟩).link ∧
      ((capture_landing_screenshots ads shot).get ⟨i, h2⟩).title = (ads.get ⟨i, h⟩).title ∧
      ((capture_landing_screenshots ads shot).get ⟨i, h2⟩).position = (ads.get ⟨i, h⟩).position := by
  intro ads shot i h e hlink hfail
  have hlen : (capture_landing_screenshots ads shot).length = ads.length :=
    capture_length ads shot
  have h2 : i < (capture_landing_screenshots ads shot).length := by omega
  have key : (capture_landing_screenshots ads shot).get ⟨i, h2⟩
      = captureOne shot (ads.get ⟨i, h⟩) := by
    simp [capture_landing_screenshots, List.get_eq_getElem, List.getElem_map]
  have key2 : captureOne shot (ads.get ⟨i, h⟩)
      = { ads.get ⟨i, h⟩ with landing_page_screenshot_base64 := none, screenshot_error := some e } := by
    unfold captureOne
    rw [if_neg hlink, hfail]
  refine ⟨hlen, h2, ?_, ?_, ?_, ?_, ?_⟩ <;> rw [key, key2]

/-- Witness for claim C9 at a two-ad batch whose second capture fails. -/
theorem C9_witness :
    (capture_landing_screenshots c9ads c9shot).length = c9ads.length ∧
    ∃ h2 : 1 < (capture_landing_screenshots c9ads c9shot).length,
      ((capture_landing_screenshots c9ads c9shot).get ⟨1, h2⟩).landing_page_screenshot_base64
          = none ∧
      ((capture_landing_screenshots c9ads c9shot).get ⟨1, h2⟩).screenshot_error
          = some "timeout" := by
  obtain ⟨h1, h2, p1, p2, -⟩ := C9_thm c9ads c9shot 1 (by decide) "timeout" (by decide) rfl
  exact ⟨h1, h2, p1, p2⟩

/-- Claim C10: the returned ads list is exactly the `num_results`-prefix
of the position-assigned merged set (truncation happens before screenshot
enrichment, so each retained ad keeps its pre-truncation position, link
and title), its length is `min num_results k` for `k` merged ads, and
`num_results` defaults to 10 when the request omits it. -/
theorem C10_thm : ∀ (pages : Nat → Except String (List Ad)) (max_pages : Nat)
    (req : SearchRequest) (shot : String → Except String String),
    ((search_ads (.ok ()) pages max_pages req shot).ads.map
        (fun a => (a.link, a.title, a.position)))
      = (((scan_google_for_sponsored_ads pages max_pages).1.take req.num_results).map
          (fun a => (a.link, a.title, a.position))) ∧
    (search_ads (.ok ()) pages max_pages req shot).ads.length
      = min req.num_results (scan_google_for_sponsored_ads pages max_pages).1.length ∧
    ({ api_key := "key", keyword := "kw" } : SearchRequest).num_results = 10 := by
  intro pages m req shot
  refine ⟨capture_preserve _ shot, ?_, rfl⟩
  show (capture_landing_screenshots
      ((scan_google_for_sponsored_ads pages m).1.take req.num_results) shot).length = _
  rw [capture_length, List.length_take]

end AdSpy
